import Mathlib

/-! File store server (`server.js`): model and verification

The program is an Express application with four routes over one MySQL table
`files`.  The embedding follows the source text route by route:

* the table `files` created at `server.js` 35-45 is a list of rows in
  insertion order together with the `AUTO_INCREMENT` counter of column `id`;
* `db.query(sql, params, callback)` is a function from the store to an error
  or a result; the callback body of each route is the continuation applied
  to that outcome;
* the `multer` middleware configured at `server.js` 58-64 receives the part
  named `file` from its multipart parser (busboy) and turns it into
  `req.file`, or hands an error to the error handler of `server.js` 159-162;
* a request is served in an environment that supplies what the handler reads
  from outside: `Date.now()`, the engine's `CURRENT_TIMESTAMP`, and whether
  the engine answers the query at all.

Conventions of the embedding.  Column widths of the `CREATE TABLE` statement
are enforced as in the engine's strict SQL mode: a value the column cannot
hold unchanged makes the `INSERT` fail, and an accepted value is stored as
given.  The path parameter `:id` is the number the engine compares with
column `id`.  The upload request is taken at the interface between busboy and
multer: the file name and MIME type are the values busboy reports for the
part, after its own decoding of the part headers.  The size limit follows
busboy 1.x, which multer bundles from 1.4.5-lts.1 on: the limit is reached,
and the upload refused, as soon as the file holds `limits.fileSize` bytes.
`res.setHeader` throws on a value holding a character that Node does not
allow in a header; thrown inside the `db.query` callback, the exception is
caught by nothing, no response is sent and the process exits.
-/

namespace FileServer

/-! ## Data model -/

/-- Payload bytes (a Node `Buffer`, a `LONGBLOB` value). -/
abbrev Bytes := List UInt8

/-- One row of table `files` (`server.js` 36-44). -/
structure FileRow where
  /-- Column `id INT AUTO_INCREMENT PRIMARY KEY`. -/
  id : Nat
  /-- Column `filename VARCHAR(255) NOT NULL`. -/
  filename : String
  /-- Column `original_name VARCHAR(255) NOT NULL`. -/
  original_name : String
  /-- Column `file_size BIGINT NOT NULL`. -/
  file_size : Nat
  /-- Column `mime_type VARCHAR(100)`, nullable. -/
  mime_type : Option String
  /-- Column `file_data LONGBLOB NOT NULL`. -/
  file_data : Bytes
  /-- Column `upload_date TIMESTAMP DEFAULT CURRENT_TIMESTAMP`. -/
  upload_date : Nat
  deriving DecidableEq, Repr

/-- The store: table `files` in insertion order and the next `AUTO_INCREMENT` value. -/
structure Db where
  rows : List FileRow
  autoInc : Nat
  deriving DecidableEq, Repr

/-- The table right after `CREATE TABLE`: no rows, counter at 1. -/
def Db.empty : Db := ⟨[], 1⟩

/-- Largest value of a signed 32-bit `INT` column. -/
def intMax : Nat := 2147483647

/-- Largest value of a signed 64-bit `BIGINT` column. -/
def bigintMax : Nat := 9223372036854775807

/-- Largest byte length of a `LONGBLOB` value. -/
def longblobMax : Nat := 4294967295

/-- What the `PRIMARY KEY` and `AUTO_INCREMENT` declarations guarantee of a table:
ids are pairwise distinct and all below the counter. -/
def Db.WF (db : Db) : Prop :=
  (db.rows.map FileRow.id).Nodup ∧ ∀ r ∈ db.rows, r.id < db.autoInc

instance (db : Db) : Decidable db.WF := by
  unfold Db.WF; infer_instance

/-- What a handler reads from outside the request while it runs. -/
structure Env where
  /-- Value of `Date.now()` in the server process (milliseconds). -/
  now : Nat
  /-- Value of `CURRENT_TIMESTAMP` at the engine when a row is inserted. -/
  dbNow : Nat
  /-- Whether the engine answers the query; `false` is the `err` branch of the callback. -/
  dbUp : Bool
  deriving DecidableEq, Repr

/-- The multipart part named `file` as busboy reports it to multer: the file name and the
MIME type busboy parsed from the part headers, and the bytes of the file. -/
structure FilePart where
  originalname : String
  mimetype : String
  data : Bytes
  deriving DecidableEq, Repr

/-- The object `req.file` built by `multer.memoryStorage()`. -/
structure MulterFile where
  originalname : String
  mimetype : String
  size : Nat
  buffer : Bytes
  deriving DecidableEq, Repr

/-- One row of the `GET /files` projection
`SELECT id, original_name, file_size, mime_type, upload_date`. -/
structure Summary where
  id : Nat
  original_name : String
  file_size : Nat
  mime_type : Option String
  upload_date : Nat
  deriving DecidableEq, Repr

/-- One row of the `GET /download/:id` projection
`SELECT original_name, mime_type, file_data`. -/
structure Fetched where
  original_name : String
  mime_type : Option String
  file_data : Bytes
  deriving DecidableEq, Repr

/-- Response bodies written by the routes. -/
inductive Body where
  /-- The object `{ error }` or `{ error, details }`. -/
  | error (msg : String) (details : Option String)
  /-- The object `{ message, fileId, filename, size }` of a stored upload. -/
  | uploaded (message : String) (fileId : Nat) (filename : String) (size : Nat)
  /-- The array of `GET /files`. -/
  | listing (entries : List Summary)
  /-- The raw bytes of `res.send(file.file_data)`. -/
  | raw (data : Bytes)
  /-- The object `{ message }` of a delete. -/
  | message (msg : String)
  /-- Nothing is sent: an exception thrown in the query callback ended the process. -/
  | uncaught (code : String)
  deriving DecidableEq, Repr

/-- A response: status code, the headers set through `res.setHeader` in order, body.
When nothing is sent the status is 0 and the body is `uncaught`. -/
structure Response where
  status : Nat
  headers : List (String × Option String)
  body : Body
  deriving DecidableEq, Repr

/-- Requests of the four routes. -/
inductive Request where
  /-- `POST /upload` with the part named `file`, if any. -/
  | upload (part : Option FilePart)
  /-- `GET /files`. -/
  | files
  /-- `GET /download/:id`. -/
  | download (id : Nat)
  /-- `DELETE /delete/:id`. -/
  | delete (id : Nat)
  deriving DecidableEq, Repr

/-! ## The `multer` middleware (`server.js` 58-64) -/

/-- The limit `limits.fileSize`: `16 * 1024 * 1024`. -/
def fileSize : Nat := 16 * 1024 * 1024

/-- Outcome of `upload.single('file')`. -/
inductive MulterResult where
  /-- The request has no part named `file`: `req.file` stays undefined. -/
  | noFile
  /-- The part was buffered into `req.file`. -/
  | file (f : MulterFile)
  /-- The middleware called `next(err)` with this message. -/
  | failed (message : String)
  deriving DecidableEq, Repr

/-- The middleware `upload.single('file')` over memory storage.  A part whose file name is
empty is skipped (`if (!filename) return fileStream.resume()`), so `req.file` stays
undefined.  A file that reaches `limits.fileSize` bytes makes busboy emit `limit`, which
multer turns into the error `LIMIT_FILE_SIZE`.  Any other part is buffered whole, with
`originalname` and `mimetype` as busboy reported them and `size` the length of the buffer. -/
def uploadSingle (part : Option FilePart) : MulterResult :=
  match part with
  | none => .noFile
  | some p =>
    if p.originalname = "" then .noFile
    else if p.data.length ≥ fileSize then .failed "File too large"
    else .file ⟨p.originalname, p.mimetype, p.data.length, p.data⟩

/-! ## Queries -/

/-- Whether the `INSERT` of `server.js` 88 is accepted: the engine answers, the
counter still fits column `id`, and every value fits its column. -/
def insertAccepted (db : Db) (env : Env) (filename original_name : String) (file_size : Nat)
    (mime_type : String) (file_data : Bytes) : Bool :=
  env.dbUp && decide (db.autoInc ≤ intMax) && decide (filename.length ≤ 255)
    && decide (original_name.length ≤ 255) && decide (file_size ≤ bigintMax)
    && decide (mime_type.length ≤ 100) && decide (file_data.length ≤ longblobMax)

/-- The query `INSERT INTO files (filename, original_name, file_size, mime_type, file_data)
VALUES (?, ?, ?, ?, ?)`: `none` is the `err` outcome (nothing written), otherwise the new
store and `result.insertId`. -/
def queryInsert (db : Db) (env : Env) (filename original_name : String) (file_size : Nat)
    (mime_type : String) (file_data : Bytes) : Option (Db × Nat) :=
  if insertAccepted db env filename original_name file_size mime_type file_data then
    some (⟨db.rows ++ [⟨db.autoInc, filename, original_name, file_size, some mime_type,
        file_data, env.dbNow⟩], db.autoInc + 1⟩, db.autoInc)
  else none

/-- Projection of a row for `GET /files`. -/
def FileRow.summary (r : FileRow) : Summary :=
  ⟨r.id, r.original_name, r.file_size, r.mime_type, r.upload_date⟩

/-- Projection of a row for `GET /download/:id`. -/
def FileRow.fetched (r : FileRow) : Fetched :=
  ⟨r.original_name, r.mime_type, r.file_data⟩

/-- The order of `ORDER BY upload_date DESC`: `a` may precede `b`. -/
def newerOrEqual (a b : FileRow) : Prop := b.upload_date ≤ a.upload_date

instance : DecidableRel newerOrEqual := fun a b =>
  inferInstanceAs (Decidable (b.upload_date ≤ a.upload_date))

instance : IsTotal FileRow newerOrEqual := ⟨fun a b => Nat.le_total b.upload_date a.upload_date⟩

instance : IsTrans FileRow newerOrEqual := ⟨fun _ _ _ hab hbc => Nat.le_trans hbc hab⟩

/-- The query `SELECT id, original_name, file_size, mime_type, upload_date FROM files
ORDER BY upload_date DESC`. -/
def queryList (db : Db) (env : Env) : Option (List Summary) :=
  if env.dbUp then some ((db.rows.insertionSort newerOrEqual).map FileRow.summary) else none

/-- The query `SELECT original_name, mime_type, file_data FROM files WHERE id = ?`. -/
def querySelect (db : Db) (env : Env) (id : Nat) : Option (List Fetched) :=
  if env.dbUp then some ((db.rows.filter (fun r => r.id == id)).map FileRow.fetched) else none

/-- The query `DELETE FROM files WHERE id = ?`: the new store and `result.affectedRows`. -/
def queryDelete (db : Db) (env : Env) (id : Nat) : Option (Db × Nat) :=
  if env.dbUp then
    some (⟨db.rows.filter (fun r => !(r.id == id)), db.autoInc⟩,
      (db.rows.filter (fun r => r.id == id)).length)
  else none

/-! ## Route handlers -/

/-- The name written to column `filename`: `Date.now() + '-' + originalname`. -/
def storageName (now : Nat) (originalname : String) : String :=
  toString now ++ "-" ++ originalname

/-- Handler of `POST /upload` (`server.js` 81-104), run after the middleware. -/
def uploadHandler (db : Db) (env : Env) (file : Option MulterFile) : Db × Response :=
  match file with
  | none => (db, ⟨400, [], .error "لم يتم اختيار ملف" none⟩)
  | some f =>
    let filename := storageName env.now f.originalname
    match queryInsert db env filename f.originalname f.size f.mimetype f.buffer with
    | none => (db, ⟨500, [], .error "فشل في حفظ الملف" none⟩)
    | some (db', insertId) =>
      (db', ⟨200, [], .uploaded "تم رفع الملف بنجاح" insertId f.originalname f.size⟩)

/-- Handler of `GET /files` (`server.js` 107-117). -/
def filesHandler (db : Db) (env : Env) : Response :=
  match queryList db env with
  | none => ⟨500, [], .error "فشل في جلب الملفات" none⟩
  | some results => ⟨200, [], .listing results⟩

/-- The header value `attachment; filename="<original_name>"`. -/
def contentDisposition (original_name : String) : String :=
  "attachment; filename=\"" ++ original_name ++ "\""

/-- Node's test of one character of a header value: a tab, or a character in
U+0020..U+007E or in U+0080..U+00FF. -/
def validHeaderChar (c : Char) : Bool :=
  c.toNat == 9 || (decide (32 ≤ c.toNat) && decide (c.toNat ≤ 126))
    || (decide (128 ≤ c.toNat) && decide (c.toNat ≤ 255))

/-- Whether every character of a header value passes Node's test. -/
def validHeaderValue (value : String) : Bool := value.data.all validHeaderChar

/-- The call `res.setHeader(name, value)`: the header that is recorded, or `none` when the
call throws `ERR_INVALID_CHAR`.  A `null` value passes the test. -/
def setHeader (name : String) (value : Option String) : Option (String × Option String) :=
  match value with
  | none => some (name, none)
  | some v => if validHeaderValue v then some (name, some v) else none

/-- The outcome of an exception thrown inside a `db.query` callback: no response is sent
and the process exits. -/
def uncaughtException : Response := ⟨0, [], .uncaught "ERR_INVALID_CHAR"⟩

/-- The `Content-Type` header after `res.send(buffer)`: for a Buffer body Express keeps the
content type set so far, and sets `application/octet-stream` when it is null or empty. -/
def sendContentType (header : String × Option String) : String × Option String :=
  match header.2 with
  | none => (header.1, some "application/octet-stream")
  | some v => if v = "" then (header.1, some "application/octet-stream") else header

/-- Handler of `GET /download/:id` (`server.js` 120-138). -/
def downloadHandler (db : Db) (env : Env) (id : Nat) : Response :=
  match querySelect db env id with
  | none => ⟨500, [], .error "فشل في جلب الملف" none⟩
  | some [] => ⟨404, [], .error "الملف غير موجود" none⟩
  | some (file :: _) =>
    match setHeader "Content-Type" file.mime_type with
    | none => uncaughtException
    | some contentType =>
      match setHeader "Content-Disposition"
          (some (contentDisposition file.original_name)) with
      | none => uncaughtException
      | some disposition => ⟨200, [sendContentType contentType, disposition], .raw file.file_data⟩

/-- Handler of `DELETE /delete/:id` (`server.js` 141-156). -/
def deleteHandler (db : Db) (env : Env) (id : Nat) : Db × Response :=
  match queryDelete db env id with
  | none => (db, ⟨500, [], .error "فشل في حذف الملف" none⟩)
  | some (db', affectedRows) =>
    if affectedRows = 0 then (db', ⟨404, [], .error "الملف غير موجود" none⟩)
    else (db', ⟨200, [], .message "تم حذف الملف بنجاح"⟩)

/-- The error-handling middleware (`server.js` 159-162). -/
def errorHandler (message : String) : Response :=
  ⟨500, [], .error "حدث خطأ في السيرفر" (some message)⟩

/-- The application: one request served against the store. -/
def handle (db : Db) (env : Env) : Request → Db × Response
  | .upload part =>
    match uploadSingle part with
    | .failed message => (db, errorHandler message)
    | .noFile => uploadHandler db env none
    | .file f => uploadHandler db env (some f)
  | .files => (db, filesHandler db env)
  | .download id => (db, downloadHandler db env id)
  | .delete id => deleteHandler db env id

/-- Whether a response was sent, that is, the request did not end the process. -/
def Response.sent (r : Response) : Bool :=
  match r.body with
  | .uncaught _ => false
  | _ => true

/-- A sequence of requests served one after another by one process; the responses in
order.  Once a request ends the process the remaining requests are not served. -/
def run (db : Db) : List (Env × Request) → Db × List Response
  | [] => (db, [])
  | (env, req) :: rest =>
    let step := handle db env req
    if step.2.sent then
      let tail := run step.1 rest
      (tail.1, step.2 :: tail.2)
    else (step.1, [step.2])

/-- The store after a sequence of requests. -/
def runDb (db : Db) (reqs : List (Env × Request)) : Db := (run db reqs).1

/-- The `fileId` of a response, when it is the body of a stored upload. -/
def Response.fileId (r : Response) : Option Nat :=
  match r.body with
  | .uploaded _ i _ _ => some i
  | _ => none

/-- The `fileId` values returned along a list of responses, in order. -/
def issuedIds (rs : List Response) : List Nat := rs.filterMap Response.fileId

/-- Whether a status code is in the 4xx class. -/
def is4xx (status : Nat) : Bool := decide (400 ≤ status) && decide (status < 500)

/-- The row written by a stored upload of part `p` under id `i`. -/
def storedRow (i : Nat) (env : Env) (p : FilePart) : FileRow :=
  ⟨i, storageName env.now p.originalname, p.originalname, p.data.length, some p.mimetype,
    p.data, env.dbNow⟩

/-- Whether the upload of part `p` is stored: the part has a file name, it stays below
the size limit, and the insert is accepted. -/
def uploadStored (db : Db) (env : Env) (p : FilePart) : Bool :=
  decide (p.originalname ≠ "") && decide (p.data.length < fileSize) &&
    insertAccepted db env (storageName env.now p.originalname) p.originalname p.data.length
      p.mimetype p.data

/-- Value of a list of decimal digit characters, most significant first. -/
def decimalValue (acc : Nat) (ds : List Char) : Nat :=
  ds.foldl (fun a c => 10 * a + (c.toNat - 48)) acc

/-! ## Basic facts about single requests -/

theorem handle_upload_stored (db : Db) (env : Env) (p : FilePart)
    (h : uploadStored db env p = true) :
    handle db env (.upload (some p)) =
      (⟨db.rows ++ [storedRow db.autoInc env p], db.autoInc + 1⟩,
        ⟨200, [], .uploaded "تم رفع الملف بنجاح" db.autoInc p.originalname p.data.length⟩) := by
  simp only [uploadStored, Bool.and_eq_true, decide_eq_true_eq] at h
  obtain ⟨⟨h0, h1⟩, h2⟩ := h
  simp [handle, uploadSingle, h0, Nat.not_le.mpr h1, uploadHandler, queryInsert, h2, storedRow]

theorem handle_upload_not_stored (db : Db) (env : Env) (part : Option FilePart)
    (h : ∀ p, part = some p → uploadStored db env p = false) :
    (handle db env (.upload part)).1 = db ∧ (handle db env (.upload part)).2.fileId = none := by
  cases part with
  | none => simp [handle, uploadSingle, uploadHandler, Response.fileId]
  | some p =>
    have hp := h p rfl
    by_cases hname : p.originalname = ""
    · simp [handle, uploadSingle, hname, uploadHandler, Response.fileId]
    · by_cases hlen : p.data.length ≥ fileSize
      · simp [handle, uploadSingle, hname, hlen, errorHandler, Response.fileId]
      · have h2 : insertAccepted db env (storageName env.now p.originalname) p.originalname
            p.data.length p.mimetype p.data = false := by
          simp only [uploadStored, Bool.and_eq_false_iff, decide_eq_false_iff_not] at hp
          rcases hp with (hp | hp) | hp
          · exact absurd hname hp
          · exact absurd (Nat.not_le.mp hlen) hp
          · exact hp
        simp [handle, uploadSingle, hname, hlen, uploadHandler, queryInsert, h2, Response.fileId]

/-- An upload that returns a `fileId` was stored, and the id is the counter's value. -/
theorem upload_fileId_inv (db : Db) (env : Env) (part : Option FilePart) (i : Nat)
    (h : (handle db env (.upload part)).2.fileId = some i) :
    ∃ p, part = some p ∧ uploadStored db env p = true ∧ i = db.autoInc := by
  cases part with
  | none => simp [handle, uploadSingle, uploadHandler, Response.fileId] at h
  | some p =>
    by_cases hs : uploadStored db env p = true
    · refine ⟨p, rfl, hs, ?_⟩
      rw [handle_upload_stored db env p hs] at h
      simpa [Response.fileId] using h.symm
    · have := (handle_upload_not_stored db env (some p) (by
        intro q hq; cases hq; simpa using hs)).2
      rw [this] at h; cases h

theorem filter_id_eq_nil_of_lt (rows : List FileRow) (n : Nat) (h : ∀ r ∈ rows, r.id < n) :
    rows.filter (fun r => r.id == n) = [] := by
  rw [List.filter_eq_nil_iff]
  intro r hr
  have := h r hr
  simp only [beq_iff_eq]
  omega

/-- The `Content-Disposition` value is a valid header value exactly when the name is. -/
theorem validHeaderValue_contentDisposition (name : String) :
    validHeaderValue (contentDisposition name) = validHeaderValue name := by
  have h1 : validHeaderValue "attachment; filename=\"" = true := by decide
  have h2 : validHeaderValue "\"" = true := by decide
  simp only [validHeaderValue] at h1 h2 ⊢
  simp only [contentDisposition, String.data_append, List.all_append, h1, h2, Bool.true_and,
    Bool.and_true]

/-- The selected row is served when both header values are valid. -/
theorem download_found (db : Db) (env : Env) (id : Nat) (r : FileRow) (rest : List FileRow)
    (hup : env.dbUp = true) (h : db.rows.filter (fun r => r.id == id) = r :: rest)
    (mime : String) (hmime : r.mime_type = some mime) (hvm : validHeaderValue mime = true)
    (hne : mime ≠ "") (hvn : validHeaderValue r.original_name = true) :
    handle db env (.download id) =
      (db, ⟨200, [("Content-Type", some mime),
          ("Content-Disposition", some (contentDisposition r.original_name))],
        .raw r.file_data⟩) := by
  simp [handle, downloadHandler, querySelect, hup, h, FileRow.fetched, setHeader, hmime, hvm,
    validHeaderValue_contentDisposition, hvn, sendContentType, hne]

/-- The selected row ends the process when its name is not a valid header value. -/
theorem download_invalid_name (db : Db) (env : Env) (id : Nat) (r : FileRow)
    (rest : List FileRow) (hup : env.dbUp = true)
    (h : db.rows.filter (fun r => r.id == id) = r :: rest)
    (hvn : validHeaderValue r.original_name = false) :
    handle db env (.download id) = (db, uncaughtException) := by
  simp only [handle, downloadHandler, querySelect, hup, h, if_true, List.map_cons,
    FileRow.fetched, setHeader, validHeaderValue_contentDisposition, hvn]
  cases hm : r.mime_type with
  | none => simp
  | some m => by_cases hv : validHeaderValue m = true <;> simp [hv]

theorem download_absent (db : Db) (env : Env) (id : Nat)
    (hup : env.dbUp = true) (h : db.rows.filter (fun r => r.id == id) = []) :
    handle db env (.download id) = (db, ⟨404, [], .error "الملف غير موجود" none⟩) := by
  simp [handle, downloadHandler, querySelect, hup, h]

/-- After a stored upload into a well-formed table the new id selects exactly the new row. -/
theorem filter_after_upload (db : Db) (hwf : db.WF) (env : Env) (p : FilePart) :
    (db.rows ++ [storedRow db.autoInc env p]).filter (fun r => r.id == db.autoInc)
      = [storedRow db.autoInc env p] := by
  rw [List.filter_append, filter_id_eq_nil_of_lt db.rows db.autoInc hwf.2]
  simp [storedRow]

theorem delete_up (db : Db) (env : Env) (id : Nat) (hup : env.dbUp = true) :
    handle db env (.delete id) =
      if (db.rows.filter (fun r => r.id == id)).length = 0 then
        (⟨db.rows.filter (fun r => !(r.id == id)), db.autoInc⟩,
          ⟨404, [], .error "الملف غير موجود" none⟩)
      else
        (⟨db.rows.filter (fun r => !(r.id == id)), db.autoInc⟩,
          ⟨200, [], .message "تم حذف الملف بنجاح"⟩) := by
  simp [handle, deleteHandler, queryDelete, hup]

theorem filter_ne_eq_self (rows : List FileRow) (id : Nat)
    (h : rows.filter (fun r => r.id == id) = []) :
    rows.filter (fun r => !(r.id == id)) = rows := by
  rw [List.filter_eq_self]
  rw [List.filter_eq_nil_iff] at h
  intro r hr
  simpa using h r hr

theorem filter_eq_of_filter_ne (rows : List FileRow) (id : Nat) :
    (rows.filter (fun r => !(r.id == id))).filter (fun r => r.id == id) = [] := by
  rw [List.filter_eq_nil_iff]
  intro r hr
  have := (List.mem_filter.mp hr).2
  simpa using this

/-! ## Claims about single requests -/

/-- C4 (missing file): for every store, a `POST /upload` without a file part responds 400
with an `{error}` body and leaves the store unchanged, so `GET /files` answers the same
before and after. -/
theorem C4_missing_file (db : Db) (env : Env) :
    (handle db env (.upload none)).2.status = 400 ∧
    (∃ msg, (handle db env (.upload none)).2.body = .error msg none) ∧
    (handle db env (.upload none)).1 = db ∧
    ∀ env2, (handle (handle db env (.upload none)).1 env2 .files).2
      = (handle db env2 .files).2 := by
  simp [handle, uploadSingle, uploadHandler]

/-- C5 (delete outcome): for every store and id, with the engine answering,
`DELETE /delete/:id` responds 200 exactly when a row with that id exists, and then all
rows with that id are removed and the others kept; when no such row exists it responds 404
and leaves the store unchanged; a second delete of the same id responds 404 and leaves the
store unchanged; after a delete that answered 200, `GET /download/:id` responds 404. -/
theorem C5_delete_outcome (db : Db) (env : Env) (id : Nat) (hup : env.dbUp = true) :
    ((handle db env (.delete id)).2.status = 200 ↔ ∃ r ∈ db.rows, r.id = id) ∧
    ((handle db env (.delete id)).2.status = 200 →
      (∀ r ∈ (handle db env (.delete id)).1.rows, r.id ≠ id) ∧
      (handle db env (.delete id)).1.rows = db.rows.filter (fun r => r.id != id)) ∧
    ((¬ ∃ r ∈ db.rows, r.id = id) →
      (handle db env (.delete id)).2.status = 404 ∧ (handle db env (.delete id)).1 = db) ∧
    (∀ env2 : Env, env2.dbUp = true →
      (handle (handle db env (.delete id)).1 env2 (.delete id)).2.status = 404 ∧
      (handle (handle db env (.delete id)).1 env2 (.delete id)).1
        = (handle db env (.delete id)).1) ∧
    (∀ env3 : Env, env3.dbUp = true → (handle db env (.delete id)).2.status = 200 →
      (handle (handle db env (.delete id)).1 env3 (.download id)).2.status = 404) := by
  have hex : (∃ r ∈ db.rows, r.id = id) ↔
      ¬ (db.rows.filter (fun r => r.id == id)).length = 0 := by
    rw [List.length_eq_zero, List.filter_eq_nil_iff]
    simp
  have hafter : (handle db env (.delete id)).1
      = ⟨db.rows.filter (fun r => !(r.id == id)), db.autoInc⟩ := by
    rw [delete_up db env id hup]; split <;> rfl
  refine ⟨?_, ?_, ?_, ?_, ?_⟩
  · rw [hex, delete_up db env id hup]
    split <;> simp_all
  · intro _
    rw [hafter]
    refine ⟨?_, ?_⟩
    · intro r hr
      have := (List.mem_filter.mp hr).2
      simpa using this
    · simp only [bne]
  · intro hno
    rw [hex, not_not] at hno
    rw [delete_up db env id hup, if_pos hno]
    refine ⟨rfl, ?_⟩
    rw [filter_ne_eq_self db.rows id (List.length_eq_zero.mp hno)]
  · intro env2 h2
    rw [hafter, delete_up _ env2 id h2]
    rw [if_pos (by rw [filter_eq_of_filter_ne]; rfl)]
    refine ⟨rfl, ?_⟩
    simp only [filter_ne_eq_self _ id (filter_eq_of_filter_ne db.rows id)]
  · intro env3 h3 _
    rw [hafter, download_absent _ env3 id h3 (filter_eq_of_filter_ne db.rows id)]

/-- Witness of C5: deleting the only row of a one-row store. -/
theorem C5_delete_outcome_witness :
    (handle ⟨[⟨1, "5-a", "a", 1, some "t", [7], 9⟩], 2⟩ ⟨0, 0, true⟩ (.delete 1)).2.status = 200 ∧
    (handle ⟨[⟨1, "5-a", "a", 1, some "t", [7], 9⟩], 2⟩ ⟨0, 0, true⟩ (.delete 1)).1.rows = [] :=
  ⟨(C5_delete_outcome ⟨[⟨1, "5-a", "a", 1, some "t", [7], 9⟩], 2⟩ ⟨0, 0, true⟩ 1 rfl).1.mpr
      ⟨⟨1, "5-a", "a", 1, some "t", [7], 9⟩, by simp, rfl⟩,
    by decide⟩

/-! ## Sequences of requests -/

theorem fileId_none_of_not_sent (r : Response) (h : r.sent = false) : r.fileId = none := by
  unfold Response.sent at h
  unfold Response.fileId
  cases hb : r.body <;> simp_all

/-- The response to an upload is always sent. -/
theorem upload_sent (db : Db) (env : Env) (part : Option FilePart) :
    (handle db env (.upload part)).2.sent = true := by
  cases part with
  | none => simp [handle, uploadSingle, uploadHandler, Response.sent]
  | some p =>
    by_cases hs : uploadStored db env p = true
    · rw [handle_upload_stored db env p hs]; rfl
    · by_cases hname : p.originalname = ""
      · simp [handle, uploadSingle, hname, uploadHandler, Response.sent]
      · by_cases hlen : p.data.length ≥ fileSize
        · simp [handle, uploadSingle, hname, hlen, errorHandler, Response.sent]
        · simp only [handle, uploadSingle, hname, hlen, if_false, uploadHandler]
          cases queryInsert db env (storageName env.now p.originalname) p.originalname
            p.data.length p.mimetype p.data <;> rfl

/-- Every request either leaves the store alone and returns no `fileId`, or is a stored
upload, or is a delete. -/
theorem handle_cases (db : Db) (env : Env) (req : Request) :
    ((handle db env req).1 = db ∧ (handle db env req).2.fileId = none) ∨
    (∃ p, req = .upload (some p) ∧ uploadStored db env p = true ∧
      (handle db env req).1 = ⟨db.rows ++ [storedRow db.autoInc env p], db.autoInc + 1⟩ ∧
      (handle db env req).2.fileId = some db.autoInc) ∨
    (∃ id, req = .delete id ∧
      (handle db env req).1 = ⟨db.rows.filter (fun r => !(r.id == id)), db.autoInc⟩ ∧
      (handle db env req).2.fileId = none) := by
  cases req with
  | upload part =>
    by_cases h : ∃ p, part = some p ∧ uploadStored db env p = true
    · obtain ⟨p, rfl, hs⟩ := h
      refine Or.inr (Or.inl ⟨p, rfl, hs, ?_, ?_⟩)
      · rw [handle_upload_stored db env p hs]
      · rw [handle_upload_stored db env p hs]; rfl
    · refine Or.inl (handle_upload_not_stored db env part ?_)
      intro p hp
      by_contra hc
      exact h ⟨p, hp, by simpa using hc⟩
  | files =>
    refine Or.inl ⟨rfl, ?_⟩
    simp only [handle, filesHandler]
    cases queryList db env <;> rfl
  | download id =>
    refine Or.inl ⟨rfl, ?_⟩
    simp only [handle, downloadHandler]
    rcases querySelect db env id with _ | _ | ⟨file, _⟩
    · rfl
    · rfl
    · simp only
      cases setHeader "Content-Type" file.mime_type with
      | none => rfl
      | some _ =>
        simp only
        cases setHeader "Content-Disposition" (some (contentDisposition file.original_name))
          <;> rfl
  | delete id =>
    by_cases hup : env.dbUp = true
    · refine Or.inr (Or.inr ⟨id, rfl, ?_, ?_⟩)
      · rw [delete_up db env id hup]; split <;> rfl
      · rw [delete_up db env id hup]; split <;> rfl
    · refine Or.inl ?_
      simp [handle, deleteHandler, queryDelete, hup, Response.fileId]

theorem runDb_nil (db : Db) : runDb db [] = db := rfl

theorem run_nil_snd (db : Db) : (run db []).2 = [] := rfl

theorem runDb_cons (db : Db) (env : Env) (req : Request) (rest : List (Env × Request)) :
    runDb db ((env, req) :: rest) =
      if (handle db env req).2.sent then runDb (handle db env req).1 rest
      else (handle db env req).1 := by
  unfold runDb
  rw [run]
  split <;> rfl

theorem run_cons_snd (db : Db) (env : Env) (req : Request) (rest : List (Env × Request)) :
    (run db ((env, req) :: rest)).2 =
      (handle db env req).2 ::
        (if (handle db env req).2.sent then (run (handle db env req).1 rest).2 else []) := by
  rw [run]
  split <;> rfl

theorem runDb_cons_sent (db : Db) (env : Env) (req : Request) (rest : List (Env × Request))
    (h : (handle db env req).2.sent = true) :
    runDb db ((env, req) :: rest) = runDb (handle db env req).1 rest := by
  rw [runDb_cons, if_pos h]

theorem run_cons_snd_sent (db : Db) (env : Env) (req : Request) (rest : List (Env × Request))
    (h : (handle db env req).2.sent = true) :
    (run db ((env, req) :: rest)).2 = (handle db env req).2 :: (run (handle db env req).1 rest).2 := by
  rw [run_cons_snd, if_pos h]

/-- A property of stores kept by every request holds after every sequence of requests. -/
theorem runDb_invariant (P : Db → Prop)
    (hstep : ∀ db env req, P db → P (handle db env req).1) :
    ∀ (reqs : List (Env × Request)) (db : Db), P db → P (runDb db reqs) := by
  intro reqs
  induction reqs with
  | nil => intro db h; exact h
  | cons x rest ih =>
    intro db h
    obtain ⟨env, req⟩ := x
    rw [runDb_cons]
    split
    · exact ih _ (hstep db env req h)
    · exact hstep db env req h

theorem handle_WF (db : Db) (env : Env) (req : Request) (h : db.WF) :
    (handle db env req).1.WF := by
  rcases handle_cases db env req with ⟨h1, _⟩ | ⟨p, _, _, h1, _⟩ | ⟨id, _, h1, _⟩
  · rw [h1]; exact h
  · rw [h1]
    refine ⟨?_, ?_⟩
    · simp only [List.map_append, List.map_cons, List.map_nil]
      rw [List.nodup_append]
      refine ⟨h.1, List.nodup_singleton _, ?_⟩
      intro a ha hb
      simp only [List.mem_singleton] at hb
      obtain ⟨r, hr, rfl⟩ := List.mem_map.mp ha
      have := h.2 r hr
      simp only [storedRow] at hb
      omega
    · intro r hr
      simp only [List.mem_append, List.mem_singleton] at hr
      rcases hr with hr | rfl
      · have := h.2 r hr
        show r.id < db.autoInc + 1
        omega
      · show db.autoInc < db.autoInc + 1
        omega
  · rw [h1]
    refine ⟨?_, ?_⟩
    · exact (h.1.sublist ((List.filter_sublist _).map _))
    · intro r hr
      exact h.2 r (List.mem_filter.mp hr).1

theorem empty_WF : Db.empty.WF := by decide

theorem runDb_WF (reqs : List (Env × Request)) (db : Db) (h : db.WF) : (runDb db reqs).WF :=
  runDb_invariant Db.WF handle_WF reqs db h

theorem handle_autoInc_le (db : Db) (env : Env) (req : Request) :
    db.autoInc ≤ (handle db env req).1.autoInc := by
  rcases handle_cases db env req with ⟨h1, _⟩ | ⟨p, _, _, h1, _⟩ | ⟨id, _, h1, _⟩ <;> rw [h1]
  show db.autoInc ≤ db.autoInc + 1
  omega

/-- Ids returned along a run are strictly increasing, start at the counter and stay below
the counter reached at the end. -/
theorem run_issued (reqs : List (Env × Request)) :
    ∀ db : Db, (issuedIds (run db reqs).2).Pairwise (· < ·) ∧
      (∀ j ∈ issuedIds (run db reqs).2, db.autoInc ≤ j) ∧
      (∀ j ∈ issuedIds (run db reqs).2, j < (runDb db reqs).autoInc) ∧
      db.autoInc ≤ (runDb db reqs).autoInc := by
  induction reqs with
  | nil => intro db; simp [run, issuedIds, runDb]
  | cons x rest ih =>
    intro db
    obtain ⟨env, req⟩ := x
    obtain ⟨ih1, ih2, ih3, ih4⟩ := ih (handle db env req).1
    have hle := handle_autoInc_le db env req
    rw [run_cons_snd, runDb_cons]
    by_cases hsent : (handle db env req).2.sent = true
    · simp only [hsent, if_true]
      cases hf : (handle db env req).2.fileId with
      | none =>
        have e : issuedIds ((handle db env req).2 :: (run (handle db env req).1 rest).2)
            = issuedIds (run (handle db env req).1 rest).2 := by
          simp [issuedIds, List.filterMap_cons, hf]
        rw [e]
        exact ⟨ih1, fun j hj => le_trans hle (ih2 j hj), ih3, le_trans hle ih4⟩
      | some i =>
        have e : issuedIds ((handle db env req).2 :: (run (handle db env req).1 rest).2)
            = i :: issuedIds (run (handle db env req).1 rest).2 := by
          simp [issuedIds, List.filterMap_cons, hf]
        rw [e]
        rcases handle_cases db env req with ⟨_, h2⟩ | ⟨p, _, _, h1, h2⟩ | ⟨id, _, _, h2⟩
        · rw [h2] at hf; cases hf
        · rw [h2] at hf
          cases hf
          have hnext : (handle db env req).1.autoInc = db.autoInc + 1 := by rw [h1]
          refine ⟨List.pairwise_cons.mpr ⟨?_, ih1⟩, ?_, ?_, le_trans hle ih4⟩
          · intro j hj
            have := ih2 j hj
            omega
          · intro j hj
            rcases List.mem_cons.mp hj with rfl | hj
            · exact le_rfl
            · have := ih2 j hj
              omega
          · intro j hj
            rcases List.mem_cons.mp hj with rfl | hj
            · omega
            · exact ih3 j hj
        · rw [h2] at hf; cases hf
    · have hs : (handle db env req).2.sent = false := by simpa using hsent
      have e : issuedIds [(handle db env req).2] = [] := by
        simp [issuedIds, List.filterMap_cons, fileId_none_of_not_sent _ hs]
      simp only [hs, Bool.false_eq_true, if_false, e]
      exact ⟨List.Pairwise.nil, fun j hj => absurd hj (List.not_mem_nil j),
        fun j hj => absurd hj (List.not_mem_nil j), hle⟩

/-- C6 (identifier uniqueness): for every finite sequence of requests served from the empty
store, the `fileId` values returned are strictly increasing in the order of issue, hence
pairwise distinct, deletes included; and at any point of the sequence every id present in
the store is below every id issued afterwards, so no id of a record, deleted later or not,
is assigned again. -/
theorem C6_id_unique (pre post : List (Env × Request)) :
    (issuedIds (run Db.empty (pre ++ post)).2).Pairwise (· < ·) ∧
    (issuedIds (run Db.empty (pre ++ post)).2).Nodup ∧
    (∀ i ∈ issuedIds (run Db.empty pre).2,
      ∀ j ∈ issuedIds (run (runDb Db.empty pre) post).2, i < j) ∧
    (∀ r ∈ (runDb Db.empty pre).rows,
      ∀ j ∈ issuedIds (run (runDb Db.empty pre) post).2, r.id < j) := by
  have hp := (run_issued (pre ++ post) Db.empty).1
  refine ⟨hp, hp.imp (fun h => Nat.ne_of_lt h), ?_, ?_⟩
  · intro i hi j hj
    have h1 := (run_issued pre Db.empty).2.2.1 i hi
    have h2 := (run_issued post (runDb Db.empty pre)).2.1 j hj
    omega
  · intro r hr j hj
    have h1 := (runDb_WF pre Db.empty empty_WF).2 r hr
    have h2 := (run_issued post (runDb Db.empty pre)).2.1 j hj
    omega

/-- Witness of C6: two uploads, the delete of the first id, then a third upload; the third
id is above the id of the row still stored. -/
theorem C6_id_unique_witness :
    issuedIds (run Db.empty
      ([(⟨5, 7, true⟩, .upload (some ⟨"a", "t", [1]⟩)), (⟨5, 7, true⟩, .upload (some ⟨"b", "t", [2]⟩)),
        (⟨5, 7, true⟩, .delete 1)] ++ [(⟨6, 8, true⟩, .upload (some ⟨"c", "t", [3]⟩))])).2
      = [1, 2, 3] ∧
    (2 : Nat) < 3 :=
  ⟨by decide,
    (C6_id_unique
      [(⟨5, 7, true⟩, .upload (some ⟨"a", "t", [1]⟩)), (⟨5, 7, true⟩, .upload (some ⟨"b", "t", [2]⟩)),
        (⟨5, 7, true⟩, .delete 1)]
      [(⟨6, 8, true⟩, .upload (some ⟨"c", "t", [3]⟩))]).2.2.2
      ⟨2, "5-b", "b", 1, some "t", [2], 7⟩ (by decide) 3 (by decide)⟩

/-- A row selected by its id stays the only row selected by it across any request that is
not a delete of that id. -/
theorem handle_keeps_row (db : Db) (env : Env) (req : Request) (i : Nat) (row : FileRow)
    (hreq : req ≠ .delete i)
    (h : db.rows.filter (fun r => r.id == i) = [row] ∧ i < db.autoInc) :
    (handle db env req).1.rows.filter (fun r => r.id == i) = [row] ∧
      i < (handle db env req).1.autoInc := by
  rcases handle_cases db env req with ⟨h1, _⟩ | ⟨p, _, _, h1, _⟩ | ⟨id, hid, h1, _⟩
  · rw [h1]; exact h
  · rw [h1]
    refine ⟨?_, ?_⟩
    · show (db.rows ++ [storedRow db.autoInc env p]).filter (fun r => r.id == i) = [row]
      rw [List.filter_append, h.1]
      have : ¬ db.autoInc = i := by omega
      simp [storedRow, this]
    · show i < db.autoInc + 1
      omega
  · rw [h1]
    refine ⟨?_, h.2⟩
    show (db.rows.filter (fun r => !(r.id == id))).filter (fun r => r.id == i) = [row]
    have hne : id ≠ i := by
      rintro rfl
      exact hreq hid
    rw [List.filter_filter, ← h.1]
    apply List.filter_congr
    intro r _
    by_cases hr : r.id = i
    · have : ¬ r.id = id := by omega
      simp [hr, this, hne.symm]
    · simp [hr]

theorem runDb_keeps_row (i : Nat) (row : FileRow) (reqs : List (Env × Request)) :
    ∀ db : Db, (∀ x ∈ reqs, x.2 ≠ Request.delete i) →
      (db.rows.filter (fun r => r.id == i) = [row] ∧ i < db.autoInc) →
      ((runDb db reqs).rows.filter (fun r => r.id == i) = [row] ∧
        i < (runDb db reqs).autoInc) := by
  induction reqs with
  | nil => intro db _ h; exact h
  | cons x rest ih =>
    intro db hno h
    obtain ⟨env, req⟩ := x
    have hstep := handle_keeps_row db env req i row (hno (env, req) (List.mem_cons_self _ _)) h
    rw [runDb_cons]
    split
    · exact ih _ (fun x hx => hno x (List.mem_cons_of_mem _ hx)) hstep
    · exact hstep

/-- The row written by an upload that returned `fileId = i` stays the only row selected by
`i` across every sequence of requests without a delete of `i`. -/
theorem stored_row_kept (db : Db) (hwf : db.WF) (env : Env) (p : FilePart) (i : Nat)
    (hok : (handle db env (.upload (some p))).2.fileId = some i)
    (reqs : List (Env × Request)) (hnodel : ∀ x ∈ reqs, x.2 ≠ Request.delete i) :
    (runDb (handle db env (.upload (some p))).1 reqs).rows.filter (fun r => r.id == i)
      = [storedRow i env p] := by
  obtain ⟨q, hq, hs, hi⟩ := upload_fileId_inv db env (some p) i hok
  cases hq
  subst hi
  have h0 : (handle db env (.upload (some p))).1.rows.filter (fun r => r.id == db.autoInc)
        = [storedRow db.autoInc env p] ∧
      db.autoInc < (handle db env (.upload (some p))).1.autoInc := by
    rw [handle_upload_stored db env p hs]
    exact ⟨filter_after_upload db hwf env p, Nat.lt_succ_self _⟩
  exact (runDb_keeps_row db.autoInc (storedRow db.autoInc env p) reqs _ hnodel h0).1

/-- A stored upload whose file name and non-empty MIME type are valid header values is
downloaded with status 200, the uploaded bytes, and both headers built from the uploaded
values. -/
theorem download_after_upload (db : Db) (hwf : db.WF) (env env2 : Env) (p : FilePart) (i : Nat)
    (hok : (handle db env (.upload (some p))).2.fileId = some i)
    (hup : env2.dbUp = true)
    (hvn : validHeaderValue p.originalname = true)
    (hvm : validHeaderValue p.mimetype = true) (hne : p.mimetype ≠ "") :
    (handle (handle db env (.upload (some p))).1 env2 (.download i)).2 =
      ⟨200, [("Content-Type", some p.mimetype),
          ("Content-Disposition", some ("attachment; filename=\"" ++ p.originalname ++ "\""))],
        .raw p.data⟩ := by
  obtain ⟨q, hq, hs, hi⟩ := upload_fileId_inv db env (some p) i hok
  cases hq
  subst hi
  rw [handle_upload_stored db env p hs]
  rw [download_found _ env2 db.autoInc (storedRow db.autoInc env p) [] hup
    (filter_after_upload db hwf env p) p.mimetype rfl hvm hne hvn]
  rfl

/-- The listing after a stored upload has an entry with the new id, and every entry with
that id carries the uploaded original name and MIME type. -/
theorem listing_after_upload (db : Db) (hwf : db.WF) (env env2 : Env) (p : FilePart) (i : Nat)
    (hok : (handle db env (.upload (some p))).2.fileId = some i)
    (hup : env2.dbUp = true) :
    ∃ entries : List Summary,
      (handle (handle db env (.upload (some p))).1 env2 .files).2
        = ⟨200, [], .listing entries⟩ ∧
      (∃ s ∈ entries, s.id = i) ∧
      ∀ s ∈ entries, s.id = i →
        s.original_name = p.originalname ∧ s.mime_type = some p.mimetype := by
  obtain ⟨q, hq, hs, hi⟩ := upload_fileId_inv db env (some p) i hok
  cases hq
  subst hi
  have hsel := filter_after_upload db hwf env p
  rw [handle_upload_stored db env p hs]
  refine ⟨((db.rows ++ [storedRow db.autoInc env p]).insertionSort newerOrEqual).map
    FileRow.summary, by simp [handle, filesHandler, queryList, hup], ?_, ?_⟩
  · refine ⟨(storedRow db.autoInc env p).summary, ?_, rfl⟩
    apply List.mem_map_of_mem
    rw [List.mem_insertionSort]
    simp
  · intro s hsm hid
    obtain ⟨r, hr, rfl⟩ := List.mem_map.mp hsm
    rw [List.mem_insertionSort] at hr
    have hmem : r ∈ (db.rows ++ [storedRow db.autoInc env p]).filter
        (fun r => r.id == db.autoInc) := by
      rw [List.mem_filter]
      exact ⟨hr, by simpa [FileRow.summary] using hid⟩
    rw [hsel, List.mem_singleton] at hmem
    subst hmem
    exact ⟨rfl, rfl⟩

/-! ## Downloads of names that are not valid header values -/

/-- C1 fails on the code at this input: the upload of three bytes under the file name
`€.txt` into the empty store answers 200 with `fileId = 1`, and `GET /download/1` on the
resulting store, the engine answering, is not answered 200 with the bytes: `res.setHeader`
throws on the name inside the query callback, nothing is sent and the process exits. -/
theorem C1_download_throws :
    (handle Db.empty ⟨1700000000000, 1700000000, true⟩
      (.upload (some ⟨"€.txt", "text/plain", [1, 2, 3]⟩))).2.status = 200 ∧
    (handle Db.empty ⟨1700000000000, 1700000000, true⟩
      (.upload (some ⟨"€.txt", "text/plain", [1, 2, 3]⟩))).2.fileId = some 1 ∧
    (handle (handle Db.empty ⟨1700000000000, 1700000000, true⟩
        (.upload (some ⟨"€.txt", "text/plain", [1, 2, 3]⟩))).1
      ⟨1700000000500, 1700000000, true⟩ (.download 1)).2 = uncaughtException ∧
    (handle (handle Db.empty ⟨1700000000000, 1700000000, true⟩
        (.upload (some ⟨"€.txt", "text/plain", [1, 2, 3]⟩))).1
      ⟨1700000000500, 1700000000, true⟩ (.download 1)).2.body ≠ .raw [1, 2, 3] := by
  decide

/-- C2 fails on the code at this input: `a.txt` is uploaded into the empty store and gets
`fileId = 1`; the further requests are the upload of `€.txt` (id 2), the download of id 2
and the download of id 1, none of them a delete of id 1.  The download of id 2 ends the
process, so the run has two responses and the download of id 1 is never answered. -/
theorem C2_download_not_served :
    (handle Db.empty ⟨5, 7, true⟩ (.upload (some ⟨"a.txt", "text/plain", [1, 2]⟩))).2.fileId
      = some 1 ∧
    (run (handle Db.empty ⟨5, 7, true⟩ (.upload (some ⟨"a.txt", "text/plain", [1, 2]⟩))).1
      [(⟨6, 8, true⟩, .upload (some ⟨"€.txt", "text/plain", [3]⟩)),
        (⟨6, 8, true⟩, .download 2), (⟨6, 8, true⟩, .download 1)]).2
      = [⟨200, [], .uploaded "تم رفع الملف بنجاح" 2 "€.txt" 1⟩, uncaughtException] := by
  decide

/-- C8 fails on the code at this input: the upload of `€.txt` with content type
`text/plain` into the empty store returns `fileId = 1` and the listing shows the entry with
that name and type, but `GET /download/1` sets no `Content-Type` and no
`Content-Disposition` on any response: `res.setHeader` throws on the name and nothing is
sent. -/
theorem C8_headers_not_sent :
    (handle Db.empty ⟨5, 7, true⟩ (.upload (some ⟨"€.txt", "text/plain", [1]⟩))).2.fileId
      = some 1 ∧
    (handle (handle Db.empty ⟨5, 7, true⟩ (.upload (some ⟨"€.txt", "text/plain", [1]⟩))).1
      ⟨6, 8, true⟩ .files).2.body = .listing [⟨1, "€.txt", 1, some "text/plain", 7⟩] ∧
    (handle (handle Db.empty ⟨5, 7, true⟩ (.upload (some ⟨"€.txt", "text/plain", [1]⟩))).1
      ⟨6, 8, true⟩ (.download 1)).2.headers = [] ∧
    (handle (handle Db.empty ⟨5, 7, true⟩ (.upload (some ⟨"€.txt", "text/plain", [1]⟩))).1
      ⟨6, 8, true⟩ (.download 1)).2.sent = false := by
  decide

/-! ## Sizes -/

/-- A named part that reaches `limits.fileSize` bytes never reaches the route handler: the
error handler answers 500 and the store is untouched. -/
theorem handle_upload_too_large (db : Db) (env : Env) (p : FilePart)
    (hname : p.originalname ≠ "") (h : fileSize ≤ p.data.length) :
    handle db env (.upload (some p)) = (db, errorHandler "File too large") := by
  simp [handle, uploadSingle, hname, h]

/-- A named part below `limits.fileSize` bytes reaches the route handler whole. -/
theorem handle_upload_below_limit (db : Db) (env : Env) (p : FilePart)
    (hname : p.originalname ≠ "") (h : p.data.length < fileSize) :
    handle db env (.upload (some p)) =
      uploadHandler db env (some ⟨p.originalname, p.mimetype, p.data.length, p.data⟩) := by
  simp [handle, uploadSingle, hname, Nat.not_le.mpr h]

/-- Rows written by the upload route carry the true length of their payload, and that
length is within the upload limit. -/
theorem handle_sizes (db : Db) (env : Env) (req : Request)
    (h : ∀ r ∈ db.rows, r.file_size = r.file_data.length ∧ r.file_size ≤ fileSize) :
    ∀ r ∈ (handle db env req).1.rows,
      r.file_size = r.file_data.length ∧ r.file_size ≤ fileSize := by
  rcases handle_cases db env req with ⟨h1, _⟩ | ⟨p, _, hs, h1, _⟩ | ⟨id, _, h1, _⟩
  · rw [h1]; exact h
  · rw [h1]
    intro r hr
    simp only [List.mem_append, List.mem_singleton] at hr
    rcases hr with hr | rfl
    · exact h r hr
    · simp only [uploadStored, Bool.and_eq_true, decide_eq_true_eq] at hs
      exact ⟨rfl, Nat.le_of_lt hs.1.2⟩
  · rw [h1]
    intro r hr
    exact h r (List.mem_filter.mp hr).1

/-- C9, as stated, fails: the upload of a file part of length 0 answers 200 and stores a
row whose `file_size` is 0. -/
theorem C9_empty_file_counterexample :
    (handle Db.empty ⟨1700000000000, 1700000000, true⟩
      (.upload (some ⟨"empty.txt", "text/plain", []⟩))).2.status = 200 ∧
    ¬ (∀ r ∈ (runDb Db.empty [(⟨1700000000000, 1700000000, true⟩,
          .upload (some ⟨"empty.txt", "text/plain", []⟩))]).rows,
        r.file_size = r.file_data.length ∧ 0 < r.file_size ∧ r.file_size ≤ 16777216) := by
  decide

/-- C9, amended (size invariant): in every store reached from the empty store by a finite
sequence of requests, every row has a `file_size` equal to the byte length of its
`file_data`, and `file_size <= 16 MiB` (16777216). -/
theorem C9_size_invariant (reqs : List (Env × Request)) :
    ∀ r ∈ (runDb Db.empty reqs).rows,
      r.file_size = r.file_data.length ∧ r.file_size ≤ 16777216 :=
  runDb_invariant
    (fun db => ∀ r ∈ db.rows, r.file_size = r.file_data.length ∧ r.file_size ≤ fileSize)
    handle_sizes reqs Db.empty (by intro r hr; cases hr)

/-- Witness of C9: the row left by one upload of two bytes into the empty store. -/
theorem C9_size_invariant_witness :
    (storedRow 1 ⟨5, 7, true⟩ ⟨"a.txt", "text/plain", [1, 2]⟩).file_size
      = (storedRow 1 ⟨5, 7, true⟩ ⟨"a.txt", "text/plain", [1, 2]⟩).file_data.length ∧
    (storedRow 1 ⟨5, 7, true⟩ ⟨"a.txt", "text/plain", [1, 2]⟩).file_size ≤ 16777216 :=
  C9_size_invariant [(⟨5, 7, true⟩, .upload (some ⟨"a.txt", "text/plain", [1, 2]⟩))]
    (storedRow 1 ⟨5, 7, true⟩ ⟨"a.txt", "text/plain", [1, 2]⟩) (by decide)

/-- C3, as stated, fails twice: the upload of a file of exactly 16 MiB (16777216 bytes)
is answered with status 500 and leaves the store empty, and the upload of a file of
16 MiB + 1 bytes is answered with status 500, which is not a 4xx status. -/
theorem C3_boundary_counterexample :
    ((handle Db.empty ⟨1700000000000, 1700000000, true⟩
        (.upload (some ⟨"big.bin", "application/octet-stream",
          List.replicate 16777216 0⟩))).2.status = 500 ∧
      (handle Db.empty ⟨1700000000000, 1700000000, true⟩
        (.upload (some ⟨"big.bin", "application/octet-stream",
          List.replicate 16777216 0⟩))).1 = Db.empty) ∧
    ((handle Db.empty ⟨1700000000000, 1700000000, true⟩
        (.upload (some ⟨"big.bin", "application/octet-stream",
          List.replicate 16777217 0⟩))).2.status = 500 ∧
      is4xx (handle Db.empty ⟨1700000000000, 1700000000, true⟩
        (.upload (some ⟨"big.bin", "application/octet-stream",
          List.replicate 16777217 0⟩))).2.status = false) := by
  rw [handle_upload_too_large Db.empty _ ⟨"big.bin", "application/octet-stream",
      List.replicate 16777216 0⟩ (by decide) (by rw [List.length_replicate]; decide),
    handle_upload_too_large Db.empty _ ⟨"big.bin", "application/octet-stream",
      List.replicate 16777217 0⟩ (by decide) (by rw [List.length_replicate]; decide)]
  exact ⟨⟨rfl, rfl⟩, rfl, rfl⟩

/-- C3, amended (size boundary): an upload whose file, a part with a file name, is shorter
than 16 MiB (16777216 bytes) passes the size limit and reaches the upload handler whole,
while an upload whose file is exactly 16 MiB or longer, 16 MiB + 1 byte included, is
rejected with status 500 and an `{error, details}` body by the error handler and leaves
the store unchanged. -/
theorem C3_size_boundary (db : Db) (env : Env) (p q : FilePart)
    (hp : p.originalname ≠ "" ∧ p.data.length < 16777216)
    (hq : q.originalname ≠ "" ∧ 16777216 ≤ q.data.length) :
    handle db env (.upload (some p)) =
      uploadHandler db env (some ⟨p.originalname, p.mimetype, p.data.length, p.data⟩) ∧
    ((handle db env (.upload (some q))).2.status = 500 ∧
      (∃ msg details, (handle db env (.upload (some q))).2.body = .error msg (some details)) ∧
      (handle db env (.upload (some q))).1 = db) := by
  rw [handle_upload_below_limit db env p hp.1 hp.2, handle_upload_too_large db env q hq.1 hq.2]
  exact ⟨rfl, rfl, ⟨_, _, rfl⟩, rfl⟩

/-- Witness of C3 on the empty store: a file of 16777215 bytes and one of 16777216. -/
theorem C3_size_boundary_witness :
    handle Db.empty ⟨5, 7, true⟩ (.upload (some ⟨"a", "b", List.replicate 16777215 0⟩)) =
      uploadHandler Db.empty ⟨5, 7, true⟩
        (some ⟨"a", "b", (List.replicate 16777215 (0 : UInt8)).length,
          List.replicate 16777215 0⟩) ∧
    ((handle Db.empty ⟨5, 7, true⟩
        (.upload (some ⟨"a", "b", List.replicate 16777216 0⟩))).2.status = 500 ∧
      (∃ msg details, (handle Db.empty ⟨5, 7, true⟩
        (.upload (some ⟨"a", "b", List.replicate 16777216 0⟩))).2.body
          = .error msg (some details)) ∧
      (handle Db.empty ⟨5, 7, true⟩
        (.upload (some ⟨"a", "b", List.replicate 16777216 0⟩))).1 = Db.empty) :=
  C3_size_boundary Db.empty ⟨5, 7, true⟩ ⟨"a", "b", List.replicate 16777215 0⟩
    ⟨"a", "b", List.replicate 16777216 0⟩
    ⟨by decide, by rw [List.length_replicate]; decide⟩
    ⟨by decide, by rw [List.length_replicate]⟩

/-! ## Listings -/

/-- A row older than every row of a list is placed last by the ordered insertion. -/
theorem orderedInsert_oldest (a : FileRow) (l : List FileRow)
    (h : ∀ b ∈ l, a.upload_date < b.upload_date) :
    l.orderedInsert newerOrEqual a = l ++ [a] := by
  induction l with
  | nil => rfl
  | cons b rest ih =>
    have hb := h b (List.mem_cons_self _ _)
    have hnot : ¬ newerOrEqual a b := by
      unfold newerOrEqual; omega
    rw [List.orderedInsert, if_neg hnot, ih (fun c hc => h c (List.mem_cons_of_mem _ hc))]
    rfl

/-- Rows inserted at strictly increasing timestamps are listed in reverse insertion order. -/
theorem insertionSort_increasing (l : List FileRow)
    (h : l.Pairwise (fun a b => a.upload_date < b.upload_date)) :
    l.insertionSort newerOrEqual = l.reverse := by
  induction l with
  | nil => rfl
  | cons a rest ih =>
    obtain ⟨h1, h2⟩ := List.pairwise_cons.mp h
    rw [List.insertionSort, ih h2, List.reverse_cons]
    apply orderedInsert_oldest
    intro b hb
    exact h1 b (List.mem_reverse.mp hb)

/-- An upload whose response carries a `fileId` appended its row and advanced the counter. -/
theorem upload_step_of_fileId (db : Db) (env : Env) (p : FilePart)
    (h : (handle db env (.upload (some p))).2.fileId ≠ none) :
    handle db env (.upload (some p)) =
      (⟨db.rows ++ [storedRow db.autoInc env p], db.autoInc + 1⟩,
        ⟨200, [], .uploaded "تم رفع الملف بنجاح" db.autoInc p.originalname p.data.length⟩) := by
  by_cases hs : uploadStored db env p = true
  · exact handle_upload_stored db env p hs
  · exact absurd (handle_upload_not_stored db env (some p) (by
      intro q hq; cases hq; simpa using hs)).2 h

theorem issuedIds_full (rs : List Response) (h : (issuedIds rs).length = rs.length) :
    ∀ r ∈ rs, r.fileId ≠ none := by
  induction rs with
  | nil => intro r hr; cases hr
  | cons a rest ih =>
    have hle : (issuedIds rest).length ≤ rest.length := List.length_filterMap_le _ _
    cases ha : a.fileId with
    | none =>
      have e : issuedIds (a :: rest) = issuedIds rest := by
        simp [issuedIds, List.filterMap_cons, ha]
      rw [e, List.length_cons] at h
      omega
    | some i =>
      have e : issuedIds (a :: rest) = i :: issuedIds rest := by
        simp [issuedIds, List.filterMap_cons, ha]
      rw [e, List.length_cons, List.length_cons] at h
      intro r hr
      rcases List.mem_cons.mp hr with rfl | hr
      · rw [ha]; exact Option.some_ne_none i
      · exact ih (by omega) r hr

/-- Three uploads into the empty store that returned the ids 1, 2, 3 left exactly their
three rows, in that order. -/
theorem three_uploads_rows (e1 e2 e3 : Env) (p1 p2 p3 : FilePart)
    (hids : issuedIds (run Db.empty [(e1, .upload (some p1)), (e2, .upload (some p2)),
      (e3, .upload (some p3))]).2 = [1, 2, 3]) :
    (runDb Db.empty [(e1, .upload (some p1)), (e2, .upload (some p2)),
      (e3, .upload (some p3))]).rows
      = [storedRow 1 e1 p1, storedRow 2 e2 p2, storedRow 3 e3 p3] := by
  simp only [run_cons_snd, runDb_cons, runDb_nil, run_nil_snd, upload_sent, if_true]
    at hids ⊢
  have hall := issuedIds_full _ (by rw [hids]; rfl)
  have h1 := upload_step_of_fileId Db.empty e1 p1 (hall _ (by simp))
  rw [h1] at hall ⊢
  have h2 := upload_step_of_fileId _ e2 p2 (hall _ (List.mem_cons_of_mem _ (List.mem_cons_self _ _)))
  rw [h2] at hall ⊢
  have h3 := upload_step_of_fileId _ e3 p3
    (hall _ (List.mem_cons_of_mem _ (List.mem_cons_of_mem _ (List.mem_cons_self _ _))))
  rw [h3]
  rfl

theorem files_up (db : Db) (env : Env) (hup : env.dbUp = true) :
    handle db env .files =
      (db, ⟨200, [], .listing ((db.rows.insertionSort newerOrEqual).map FileRow.summary)⟩) := by
  simp [handle, filesHandler, queryList, hup]

/-- C7 (list ordering): for every store, `GET /files` (the engine answering) responds 200
with a list that holds exactly one summary `{id, original_name, file_size, mime_type,
upload_date}` per stored row (a permutation of the rows' summaries, which carry no payload),
ordered by `upload_date` descending; rows inserted at strictly increasing timestamps are
listed in reverse insertion order, so three uploads at times `t1 < t2 < t3` into the empty
store are listed in the order `t3, t2, t1`; on a store without rows the list is empty. -/
theorem C7_list_ordering (db : Db) (env : Env) (hup : env.dbUp = true) :
    ∃ entries : List Summary,
      (handle db env .files).2 = ⟨200, [], .listing entries⟩ ∧
      entries.Perm (db.rows.map FileRow.summary) ∧
      entries.Pairwise (fun a b => b.upload_date ≤ a.upload_date) ∧
      (db.rows.Pairwise (fun a b => a.upload_date < b.upload_date) →
        entries = (db.rows.map FileRow.summary).reverse) ∧
      (∀ (e1 e2 e3 : Env) (p1 p2 p3 : FilePart),
        db = runDb Db.empty [(e1, .upload (some p1)), (e2, .upload (some p2)),
          (e3, .upload (some p3))] →
        issuedIds (run Db.empty [(e1, .upload (some p1)), (e2, .upload (some p2)),
          (e3, .upload (some p3))]).2 = [1, 2, 3] →
        e1.dbNow < e2.dbNow → e2.dbNow < e3.dbNow →
        entries = [(storedRow 3 e3 p3).summary, (storedRow 2 e2 p2).summary,
          (storedRow 1 e1 p1).summary]) ∧
      (db.rows = [] → entries = []) := by
  refine ⟨(db.rows.insertionSort newerOrEqual).map FileRow.summary, ?_, ?_, ?_, ?_, ?_, ?_⟩
  · rw [files_up db env hup]
  · exact (List.perm_insertionSort newerOrEqual db.rows).map _
  · rw [List.pairwise_map]
    exact List.sorted_insertionSort newerOrEqual db.rows
  · intro h
    rw [insertionSort_increasing db.rows h, List.map_reverse]
  · intro e1 e2 e3 p1 p2 p3 hdb hids h12 h23
    rw [hdb, three_uploads_rows e1 e2 e3 p1 p2 p3 hids]
    have hnot23 : ¬ newerOrEqual (storedRow 2 e2 p2) (storedRow 3 e3 p3) := by
      simp only [newerOrEqual, storedRow]; omega
    have hnot12 : ¬ newerOrEqual (storedRow 1 e1 p1) (storedRow 2 e2 p2) := by
      simp only [newerOrEqual, storedRow]; omega
    have hnot13 : ¬ newerOrEqual (storedRow 1 e1 p1) (storedRow 3 e3 p3) := by
      simp only [newerOrEqual, storedRow]; omega
    simp [List.insertionSort, List.orderedInsert, hnot23, hnot12, hnot13]
  · intro h
    rw [h]; rfl

/-- Witness of C7 on a store of two rows inserted at timestamps 10 and 20. -/
theorem C7_list_ordering_witness :
    ∃ entries : List Summary,
      (handle ⟨[⟨1, "5-a", "a", 1, some "t", [7], 10⟩, ⟨2, "6-b", "b", 1, some "t", [8], 20⟩], 3⟩
        ⟨0, 0, true⟩ .files).2 = ⟨200, [], .listing entries⟩ ∧
      entries = [⟨2, "b", 1, some "t", 20⟩, ⟨1, "a", 1, some "t", 10⟩] := by
  obtain ⟨entries, h1, _, _, h4, _⟩ := C7_list_ordering
    ⟨[⟨1, "5-a", "a", 1, some "t", [7], 10⟩, ⟨2, "6-b", "b", 1, some "t", [8], 20⟩], 3⟩
    ⟨0, 0, true⟩ rfl
  exact ⟨entries, h1, h4 (by decide)⟩

/-! ## Storage names -/

theorem digitChar_value (d : Nat) (h : d < 10) : (Nat.digitChar d).toNat - 48 = d := by
  interval_cases d <;> rfl

theorem digitChar_ne_dash (d : Nat) (h : d < 10) : Nat.digitChar d ≠ '-' := by
  interval_cases d <;> decide

theorem toDigitsCore_value (fuel : Nat) :
    ∀ (n : Nat) (ds : List Char), n < fuel →
      decimalValue 0 (Nat.toDigitsCore 10 fuel n ds) = decimalValue n ds := by
  induction fuel with
  | zero => intro n ds h; omega
  | succ fuel ih =>
    intro n ds h
    have hd := digitChar_value (n % 10) (Nat.mod_lt _ (by decide))
    rw [Nat.toDigitsCore]
    by_cases h0 : n / 10 = 0
    · simp only [h0, if_true]
      have hn : n % 10 = n := Nat.mod_eq_of_lt (by omega)
      rw [hn] at hd
      simp only [decimalValue, List.foldl_cons, hn, hd, Nat.mul_zero, Nat.zero_add]
    · simp only [h0, if_false]
      rw [ih (n / 10) _ (by omega)]
      simp only [decimalValue, List.foldl_cons, hd]
      congr 1
      omega

theorem toDigitsCore_no_dash (fuel : Nat) :
    ∀ (n : Nat) (ds : List Char), '-' ∉ ds → '-' ∉ Nat.toDigitsCore 10 fuel n ds := by
  induction fuel with
  | zero => intro n ds h; simpa [Nat.toDigitsCore] using h
  | succ fuel ih =>
    intro n ds h
    have hd := digitChar_ne_dash (n % 10) (Nat.mod_lt _ (by decide))
    have hcons : '-' ∉ Nat.digitChar (n % 10) :: ds := by
      simp only [List.mem_cons, not_or]
      exact ⟨fun e => hd e.symm, h⟩
    rw [Nat.toDigitsCore]
    by_cases h0 : n / 10 = 0
    · simpa only [h0, if_true] using hcons
    · simp only [h0, if_false]
      exact ih _ _ hcons

theorem toDigits_injective (a b : Nat) (h : Nat.toDigits 10 a = Nat.toDigits 10 b) : a = b := by
  have ha := toDigitsCore_value (a + 1) a [] (Nat.lt_succ_self a)
  have hb := toDigitsCore_value (b + 1) b [] (Nat.lt_succ_self b)
  simp only [Nat.toDigits] at h
  rw [h, hb] at ha
  simpa [decimalValue] using ha.symm

/-- Two lists split at their first dash agree part by part. -/
theorem split_at_dash (l1 l2 r1 r2 : List Char) (h1 : '-' ∉ l1) (h2 : '-' ∉ l2)
    (h : l1 ++ '-' :: r1 = l2 ++ '-' :: r2) : l1 = l2 ∧ r1 = r2 := by
  induction l1 generalizing l2 with
  | nil =>
    cases l2 with
    | nil => simpa using h
    | cons c l2 =>
      simp only [List.nil_append, List.cons_append, List.cons.injEq] at h
      exact absurd (by rw [← h.1]; exact List.mem_cons_self _ _) h2
  | cons c l1 ih =>
    cases l2 with
    | nil =>
      simp only [List.nil_append, List.cons_append, List.cons.injEq] at h
      exact absurd (by rw [h.1]; exact List.mem_cons_self _ _) h1
    | cons d l2 =>
      simp only [List.cons_append, List.cons.injEq] at h
      obtain ⟨e1, e2⟩ := ih l2 (fun hm => h1 (List.mem_cons_of_mem _ hm))
        (fun hm => h2 (List.mem_cons_of_mem _ hm)) h.2
      exact ⟨by rw [h.1, e1], e2⟩

theorem storageName_data (now : Nat) (name : String) :
    (storageName now name).data = Nat.toDigits 10 now ++ '-' :: name.data := by
  simp [storageName, toString, Nat.repr, List.asString]

/-- The storage name determines the clock value and the original name. -/
theorem storageName_inj (a b : Nat) (n m : String) :
    storageName a n = storageName b m ↔ a = b ∧ n = m := by
  constructor
  · intro h
    have hd := congrArg String.data h
    rw [storageName_data, storageName_data] at hd
    obtain ⟨e1, e2⟩ := split_at_dash _ _ _ _
      (toDigitsCore_no_dash _ a [] (List.not_mem_nil _))
      (toDigitsCore_no_dash _ b [] (List.not_mem_nil _)) hd
    exact ⟨toDigits_injective a b e1, String.ext e2⟩
  · rintro ⟨rfl, rfl⟩; rfl

/-- C10, as stated, fails: two uploads of the same original name at the same clock value
are both stored, under the ids 1 and 2, with the same `filename`. -/
theorem C10_same_tick_counterexample :
    issuedIds (run Db.empty
      [(⟨1700000000000, 1700000000, true⟩, .upload (some ⟨"a.txt", "text/plain", [1]⟩)),
        (⟨1700000000000, 1700000000, true⟩, .upload (some ⟨"a.txt", "text/plain", [2]⟩))]).2
      = [1, 2] ∧
    (runDb Db.empty
      [(⟨1700000000000, 1700000000, true⟩, .upload (some ⟨"a.txt", "text/plain", [1]⟩)),
        (⟨1700000000000, 1700000000, true⟩, .upload (some ⟨"a.txt", "text/plain", [2]⟩))]).rows.map
        FileRow.filename
      = ["1700000000000-a.txt", "1700000000000-a.txt"] ∧
    ¬ ((runDb Db.empty
      [(⟨1700000000000, 1700000000, true⟩, .upload (some ⟨"a.txt", "text/plain", [1]⟩)),
        (⟨1700000000000, 1700000000, true⟩, .upload (some ⟨"a.txt", "text/plain", [2]⟩))]).rows.map
        FileRow.filename).Nodup := by
  decide

/-- C10, amended (storage name): a stored upload writes one row whose `filename` is the
clock value in decimal followed by `-` and the original name; the rows of two stored
uploads have the same `filename` exactly when the uploads have the same clock value and
the same original name, so uploads that differ in clock value or in original name are
stored under different `filename` values. -/
theorem C10_storage_name (db1 db2 : Db) (env1 env2 : Env) (p1 p2 : FilePart) (i1 i2 : Nat)
    (h1 : (handle db1 env1 (.upload (some p1))).2.fileId = some i1)
    (h2 : (handle db2 env2 (.upload (some p2))).2.fileId = some i2) :
    (handle db1 env1 (.upload (some p1))).1.rows = db1.rows ++ [storedRow i1 env1 p1] ∧
    (handle db2 env2 (.upload (some p2))).1.rows = db2.rows ++ [storedRow i2 env2 p2] ∧
    (storedRow i1 env1 p1).filename = toString env1.now ++ "-" ++ p1.originalname ∧
    ((storedRow i1 env1 p1).filename = (storedRow i2 env2 p2).filename ↔
      env1.now = env2.now ∧ p1.originalname = p2.originalname) := by
  obtain ⟨q1, hq1, hs1, hi1⟩ := upload_fileId_inv db1 env1 (some p1) i1 h1
  obtain ⟨q2, hq2, hs2, hi2⟩ := upload_fileId_inv db2 env2 (some p2) i2 h2
  cases hq1
  cases hq2
  subst hi1
  subst hi2
  rw [handle_upload_stored db1 env1 p1 hs1, handle_upload_stored db2 env2 p2 hs2]
  exact ⟨rfl, rfl, rfl, storageName_inj env1.now env2.now p1.originalname p2.originalname⟩

/-- Witness of C10: the same original name uploaded at two clock values. -/
theorem C10_storage_name_witness :
    (storedRow 1 ⟨5, 7, true⟩ ⟨"a.txt", "text/plain", [1]⟩).filename = "5-a.txt" ∧
    (storedRow 2 ⟨6, 7, true⟩ ⟨"a.txt", "text/plain", [2]⟩).filename = "6-a.txt" ∧
    (storedRow 1 ⟨5, 7, true⟩ ⟨"a.txt", "text/plain", [1]⟩).filename
      ≠ (storedRow 2 ⟨6, 7, true⟩ ⟨"a.txt", "text/plain", [2]⟩).filename :=
  ⟨by decide, by decide, fun h =>
    absurd ((C10_storage_name Db.empty
      (handle Db.empty ⟨5, 7, true⟩ (.upload (some ⟨"a.txt", "text/plain", [1]⟩))).1
      ⟨5, 7, true⟩ ⟨6, 7, true⟩ ⟨"a.txt", "text/plain", [1]⟩ ⟨"a.txt", "text/plain", [2]⟩ 1 2
      (by decide) (by decide)).2.2.2.mp h).1 (by decide)⟩

end FileServer
